import Mathlib

/-!
Verification of the image-forensics pipeline of the IAdetector repository.

The Python modules under `src/modules/image_forensics/` and
`src/backend/services/forensics_pipeline.py` are shallowly embedded below:
pure numeric code becomes functions on `ℚ` (or `ℝ` where the source applies
`exp`, `log` or `sqrt`), Python dictionaries become association lists,
fallible code returns `Option`/`Except`, and Python's `round(x, 1)`
(round-half-even) is modelled exactly on `ℚ`.
-/

/-! ### Python primitives -/

/-- Python's `round` to an integer: round half to even (banker's rounding). -/
def pyRound (q : ℚ) : ℤ :=
  if q - ⌊q⌋ < 1/2 then ⌊q⌋
  else if 1/2 < q - ⌊q⌋ then ⌊q⌋ + 1
  else if ⌊q⌋ % 2 = 0 then ⌊q⌋ else ⌊q⌋ + 1

/-- Python's `round(x, 1)`: round to one decimal place, half to even. -/
def pyRound1 (q : ℚ) : ℚ := (pyRound (q * 10) : ℚ) / 10

/-- Boolean infix test on character lists (Python's `needle in haystack`). -/
def isInfixB (needle hay : List Char) : Bool :=
  match hay with
  | [] => needle.isEmpty
  | _ :: t => needle.isPrefixOf hay || isInfixB needle t

/-- Python's `needle in haystack` on strings. -/
def inStr (needle hay : String) : Bool := isInfixB needle.toList hay.toList

/-- `str.upper` for the characters that occur in the verdict strings:
ASCII lowercase plus the accented Spanish letters. Uppercase characters are
unchanged, exactly as in Python. -/
def pyUpperChar (c : Char) : Char :=
  if 'a' ≤ c ∧ c ≤ 'z' then Char.ofNat (c.toNat - 32)
  else if c = 'á' then 'Á'
  else if c = 'é' then 'É'
  else if c = 'í' then 'Í'
  else if c = 'ó' then 'Ó'
  else if c = 'ú' then 'Ú'
  else if c = 'ñ' then 'Ñ'
  else c

/-- Python's `str.upper` (restricted to the alphabet used by the verdicts). -/
def pyUpper (s : String) : String := String.mk (s.toList.map pyUpperChar)

/-- Python's `dict.get(key, default)` on an association list. -/
def dictGet (d : List (String × ℚ)) (k : String) (dflt : ℚ) : ℚ :=
  match d.find? (fun kv => kv.1 = k) with
  | some kv => kv.2
  | none => dflt

/-! ### Schemas (`src/modules/image_forensics/schemas.py`) -/

/-- A value stored in an expert's `raw_data` dictionary. -/
inductive RawVal
| s (v : String)
| q (v : ℚ)
deriving DecidableEq

/-- `dict.get(key)` on a raw-data association list. -/
def rawGet (d : List (String × RawVal)) (k : String) : Option RawVal :=
  (d.find? (fun kv => kv.1 = k)).map (fun kv => kv.2)

/-- `ExpertResult` dataclass (schemas.py lines 32-48). `raw_data` is the
expert's auxiliary dictionary. -/
structure ExpertResult where
  name : String
  score : ℚ
  confidence : ℚ
  evidence : List String
  rawData : List (String × RawVal)
deriving DecidableEq

/-- `ForensicResult` dataclass (schemas.py lines 51-67); `scores` is the
numeric dictionary. -/
structure ForensicResult where
  verdict : String
  confidence : String
  scores : List (String × ℚ)
  evidence : List String
  notes : String
deriving DecidableEq

/-- The serialized output of `ForensicResult.to_dict` (schemas.py lines
102-111): the four probability fields plus the passed-through data. -/
structure DictOut where
  verdict : String
  confidence : String
  ai_probability : ℚ
  real_probability : ℚ
  probabilidad_ia : ℚ
  probabilidad_real : ℚ
  scores : List (String × ℚ)
  evidence : List String
  notes : String
deriving DecidableEq

/-- The visual override of `ForensicResult.to_dict` (schemas.py lines 79-97):
starting from `scores.get('unified', 0.5)`, the verdict text forces the
displayed value into a verdict-consistent band. -/
def toDictRaw (verdict : String) (raw0 : ℚ) : ℚ :=
  if inStr "SINTÉTICA" verdict || inStr "IA" (pyUpper verdict) then
    (if max raw0 0.85 < 0.5 then 0.95 else max raw0 0.85)
  else if inStr "REAL" (pyUpper verdict) then min raw0 0.20
  else if inStr "MANUAL" verdict || inStr "INCONCLUSIVE" verdict then 0.50
  else raw0

/-- `ForensicResult.to_dict` (schemas.py lines 69-111). -/
def ForensicResult.to_dict (r : ForensicResult) : DictOut :=
  let raw := toDictRaw r.verdict (dictGet r.scores "unified" 0.5)
  let aiProb := pyRound1 (raw * 100)
  let realProb := pyRound1 (100 - aiProb)
  ⟨r.verdict, r.confidence, aiProb, realProb, aiProb, realProb,
    r.scores, r.evidence, r.notes⟩

/-! ### Fusion engine (`src/modules/image_forensics/fusion_engine.py`) -/

/-- `VERDICT_IA` constant (fusion_engine.py line 17). -/
def VERDICT_IA : String := "GENERADA POR IA / SINTÉTICA"

/-- `VERDICT_REAL` constant (fusion_engine.py line 18). -/
def VERDICT_REAL : String := "COMPATIBLE CON FOTOGRAFÍA REAL"

/-- The unified score `fuse` bases its decision on (fusion_engine.py lines
47-55): `0.5` when no semantic result is present, else the semantic score. -/
def fuseFinalScore (semantic : Option ExpertResult) : ℚ :=
  match semantic with
  | none => 0.5
  | some s => s.score

/-- The reasoning text `fuse` reports (fusion_engine.py lines 49-55). -/
def fuseReasoning (semantic : Option ExpertResult) : String :=
  match semantic with
  | none => "No semantic analysis available"
  | some s =>
    match rawGet s.rawData "reasoning" with
    | some (RawVal.s r) => r
    | some (RawVal.q _) => "Análisis completado"
    | none => "Análisis completado"

/-- `FusionEngine.fuse` (fusion_engine.py lines 30-89). -/
def fuse (multilidResult ufdResult : ExpertResult)
    (semanticResult : Option ExpertResult) : ForensicResult :=
  let finalScore := fuseFinalScore semanticResult
  let reasoning := fuseReasoning semanticResult
  let verdict := if 0.60 < finalScore then VERDICT_IA else VERDICT_REAL
  let notes := if 0.60 < finalScore then "🚫 IA DETECTADA: " ++ reasoning
    else "✅ FOTO REAL: " ++ reasoning
  let aiProb := pyRound1 (finalScore * 100)
  let realProb := pyRound1 (100 - aiProb)
  { verdict := verdict
    confidence := "ALTA"
    scores := [("unified", finalScore), ("ai_probability", aiProb),
      ("real_probability", realProb), ("deepseek", finalScore),
      ("multilid", multilidResult.score), ("ufd", ufdResult.score),
      ("semantic", finalScore)]
    evidence := []
    notes := notes }

/-- An `ExpertResult` carrying only a name and a score, as used by tests. -/
def mkExpert (nm : String) (sc : ℚ) : ExpertResult :=
  ⟨nm, sc, 1, [], []⟩

/-! ### Semantic expert (`src/modules/image_forensics/semantic_expert.py`)

`DeepSeekSemanticEngine.evaluate_evidence` receives the language-model
response text (`res.get("response", "")`); network access by
`self.client.ask` is abstracted by taking that text as an input. -/

/-- Whitespace characters stripped by Python's `str.strip` / skipped by
`json.loads`. -/
def isWs (c : Char) : Bool := c = ' ' || c = '\n' || c = '\t' || c = '\r'

/-- Drop whitespace on both ends (`str.strip`). -/
def stripWs (l : List Char) : List Char :=
  ((l.dropWhile isWs).reverse.dropWhile isWs).reverse

/-- The suffix after the LAST occurrence of `marker`, if `marker` occurs
(`text.split(marker)[-1]`). -/
def afterLast (marker : List Char) : List Char → Option (List Char)
  | [] => none
  | c :: t =>
    match afterLast marker t with
    | some r => some r
    | none =>
      if marker.isPrefixOf (c :: t) then some ((c :: t).drop marker.length)
      else none

/-- `if "</think>" in text: text = text.split("</think>")[-1].strip()`
(semantic_expert.py lines 124-126). -/
def thinkSplit (text : List Char) : List Char :=
  match afterLast "</think>".toList text with
  | some r => stripWs r
  | none => text

/-- `re.search(r'\x7b[^\x7d]+\x7d', text)` (semantic_expert.py line 128):
the leftmost span that starts with `{`, has at least one non-`}` character,
and ends at the first following `}`. -/
def findSpan : List Char → Option (List Char)
  | [] => none
  | c :: t =>
    if c = Char.ofNat 123 then
      match t.span (fun d => d ≠ Char.ofNat 125) with
      | (body, rest) =>
        if body ≠ [] ∧ rest ≠ [] then some (c :: body ++ [Char.ofNat 125])
        else findSpan t
    else findSpan t

/-- A JSON value as far as the response contract uses them. A number is kept
as a decimal mantissa and scale (value `m / 10 ^ s`) so that parsing stays
fully computable. -/
inductive JVal
| num (m : ℤ) (s : ℕ)
| str (v : String)
| bool (b : Bool)
| null
deriving DecidableEq

/-- Numeric value of a parsed JSON number. -/
def JVal.toRat : JVal → Option ℚ
  | JVal.num m s => some ((m : ℚ) / 10 ^ s)
  | _ => none

/-- Digits of a character run interpreted as a natural number. -/
def digitsToNat (ds : List Char) : ℕ :=
  ds.foldl (fun a c => a * 10 + (c.toNat - 48)) 0

/-- Parse a JSON number (optional minus, digits, optional fraction). -/
def parseNumber (l : List Char) : Option (JVal × List Char) :=
  let (neg, l₁) := match l with
    | c :: t => if c = '-' then (true, t) else (false, l)
    | [] => (false, ([] : List Char))
  match l₁.span Char.isDigit with
  | (ds, l₂) =>
    if ds = [] then none
    else
      match l₂ with
      | '.' :: l₃ =>
        match l₃.span Char.isDigit with
        | (fs, l₄) =>
          if fs = [] then none
          else
            let m : ℤ := (digitsToNat ds) * 10 ^ fs.length + digitsToNat fs
            some (JVal.num (if neg then -m else m) fs.length, l₄)
      | _ => some (JVal.num (if neg then -(digitsToNat ds : ℤ) else digitsToNat ds) 0, l₂)

/-- Parse a JSON string literal (escape sequences are not used by the
response contract and are not modelled). -/
def parseStringLit (l : List Char) : Option (String × List Char) :=
  match l with
  | '"' :: t =>
    match t.span (fun d => d ≠ '"') with
    | (body, rest) =>
      match rest with
      | '"' :: r => some (String.mk body, r)
      | _ => none
  | _ => none

/-- Parse a JSON scalar value. Nested structures cannot occur inside a
`\x7b[^\x7d]+\x7d` span (it contains no inner `\x7d`), so they are not
modelled: on them `json.loads` fails on the truncated span anyway. -/
def parseValue (l : List Char) : Option (JVal × List Char) :=
  match l with
  | [] => none
  | c :: _ =>
    if c = '"' then (parseStringLit l).map (fun p => (JVal.str p.1, p.2))
    else if c.isDigit || c = '-' then parseNumber l
    else if "true".toList.isPrefixOf l then some (JVal.bool true, l.drop 4)
    else if "false".toList.isPrefixOf l then some (JVal.bool false, l.drop 5)
    else if "null".toList.isPrefixOf l then some (JVal.null, l.drop 4)
    else none

/-- Parse the members of a JSON object after the opening brace; the `fuel`
argument bounds recursion by the input length. Returns the members and the
input remaining after the closing brace. -/
def parseMembers (fuel : ℕ) (l : List Char) : Option (List (String × JVal) × List Char) :=
  match fuel with
  | 0 => none
  | fuel + 1 =>
    match parseStringLit (l.dropWhile isWs) with
    | none => none
    | some (k, r₁) =>
      match r₁.dropWhile isWs with
      | ':' :: r₂ =>
        match parseValue (r₂.dropWhile isWs) with
        | none => none
        | some (v, r₃) =>
          match r₃.dropWhile isWs with
          | ',' :: r₄ =>
            (parseMembers fuel r₄).map (fun p => ((k, v) :: p.1, p.2))
          | c :: r₄ =>
            if c = Char.ofNat 125 then some ([(k, v)], r₄) else none
          | [] => none
      | _ => none

/-- `json.loads` on an extracted span, for the flat objects the response
contract allows; `none` models a raised `json.JSONDecodeError`. -/
def jsonLoads (span : List Char) : Option (List (String × JVal)) :=
  match span.dropWhile isWs with
  | c :: t =>
    if c = Char.ofNat 123 then
      match parseMembers t.length t with
      | some (kvs, rest) => if rest.dropWhile isWs = [] then some kvs else none
      | none => none
    else none
  | [] => none

/-- `d.find` on parsed JSON members (`data.get(key)`). -/
def jsonGet (d : List (String × JVal)) (k : String) : Option JVal :=
  (d.find? (fun kv => kv.1 = k)).map (fun kv => kv.2)

/-- Python's `float(...)` on a parsed JSON value; `none` models a raised
`TypeError`/`ValueError` (`float(None)`, `float([...])`, non-numeric
strings). `float(True) = 1.0`, `float(False) = 0.0`, and numeric strings
convert. -/
def pyFloat (v : JVal) : Option ℚ :=
  match v with
  | JVal.num m s => (JVal.num m s).toRat
  | JVal.str t =>
    match parseNumber (stripWs t.toList) with
    | some (n, []) => n.toRat
    | _ => none
  | JVal.bool b => some (if b then 1 else 0)
  | JVal.null => none

/-- The V13.0 triple-zone enforcement applied to the parsed score
(semantic_expert.py lines 145-168). -/
def zoneEnforce (multilid ufd score : ℚ) : ℚ :=
  if multilid < 0.200 ∧ 0.40 < ufd then
    (if score < 0.90 then 0.98 else score)
  else if multilid < 0.200 ∧ ufd < 0.38 then
    (if 0.40 < score then 0.25 else score)
  else if 0.200 ≤ multilid then
    (if score < 0.75 then max score 0.85 else score)
  else score

/-- The reasoning suffix the zone enforcement appends. -/
def zoneSuffix (multilid ufd score : ℚ) : String :=
  if multilid < 0.200 ∧ 0.40 < ufd then
    (if score < 0.90 then " | ZONA 3: PARADOJA DEL RUIDO - GAN detectado" else "")
  else if multilid < 0.200 ∧ ufd < 0.38 then
    (if 0.40 < score then " | ZONA 2: Filtro destructivo compatible" else "")
  else if 0.200 ≤ multilid then
    (if score < 0.75 then " | ZONA 1: Geometría perfecta de difusión" else "")
  else ""

/-- Outcome of `DeepSeekSemanticEngine.evaluate_evidence`: the returned
`{"score": ..., "reasoning": ...}` dictionary. -/
structure EvalOut where
  score : ℚ
  reasoning : String
deriving DecidableEq

/-- `DeepSeekSemanticEngine.evaluate_evidence` (semantic_expert.py lines
49-180) from the response text on: JSON extraction, parsing, the 0.5
fallbacks and the triple-zone enforcement. A failure raised inside the
`try` block (from `json.loads` or `float`) is converted by the
`except` handler into `{"score": 0.5, "reasoning": "Error en juicio IA"}`. -/
def evaluate_evidence (responseText : String) (multilid ufd : ℚ) : EvalOut :=
  match findSpan (thinkSplit responseText.toList) with
  | none =>
    -- no JSON found: score 0.5, then zone enforcement still applies
    ⟨zoneEnforce multilid ufd 0.5,
      "No se pudo parsear respuesta" ++ zoneSuffix multilid ufd 0.5⟩
  | some span =>
    match jsonLoads span with
    | none => ⟨0.5, "Error en juicio IA"⟩
    | some data =>
      let scoreVal := match jsonGet data "ai_probability_score" with
        | some v => v
        | none => JVal.num 5 1   -- data.get default 0.5
      match pyFloat scoreVal with
      | none => ⟨0.5, "Error en juicio IA"⟩
      | some s =>
        let reasoning := match jsonGet data "reasoning" with
          | some (JVal.str r) => r
          | some _ => "Análisis de zona"   -- non-string values do not occur
          | none => "Análisis de zona"
        ⟨zoneEnforce multilid ufd s, reasoning ++ zoneSuffix multilid ufd s⟩

/-- The context lookups of `SemanticForensicsExpert.analyze`
(semantic_expert.py lines 206-208):
`technical_context.get('multilid_score', technical_context.get('multilid', 0.5))`
and the same for `ufd`. -/
def semanticCtxVals (ctx : Option (List (String × ℚ))) : ℚ × ℚ :=
  match ctx with
  | some d => (dictGet d "multilid_score" (dictGet d "multilid" 0.5),
               dictGet d "ufd_score" (dictGet d "ufd" 0.5))
  | none => (0.5, 0.5)

/-! ### multiLID expert (`src/modules/image_forensics/multilid_expert.py`) -/

/-- `np.mean` of a rational list. -/
def listMean (l : List ℚ) : ℚ := l.sum / l.length

/-- `max(abs(z) for z in z_scores)` (multilid_expert.py line 294). -/
def maxAbsZ (zs : List ℚ) : ℚ := (zs.map (fun z => |z|)).foldr max 0

/-- `np.std`: population standard deviation of the z-scores
(multilid_expert.py line 308). -/
def popVariance (zs : List ℚ) : ℚ :=
  (zs.map (fun z => (z - listMean zs) ^ 2)).sum / zs.length

/-- The logistic sigmoid, as `1.0 / (1.0 + np.exp(-x))`. -/
noncomputable def sigmoid (x : ℝ) : ℝ := 1 / (1 + Real.exp (-x))

/-- `synthetic_score = 1.0 / (1.0 + np.exp(-(-avg_z - 1.0)))`
(multilid_expert.py line 299). -/
noncomputable def multilidBase (zs : List ℚ) : ℝ :=
  sigmoid (-(listMean zs : ℝ) - 1.0)

/-- The anomaly adjustment of the synthetic score (multilid_expert.py lines
301-305): thresholds `HIGH_CONFIDENCE_ZSCORE = 3.0` and
`ANOMALY_THRESHOLD_ZSCORE = 2.0`. -/
noncomputable def multilidAdjusted (zs : List ℚ) : ℝ :=
  if 3.0 < (maxAbsZ zs : ℝ) then max (multilidBase zs) 0.75
  else if 2.0 < (maxAbsZ zs : ℝ) then max (multilidBase zs) 0.5
  else multilidBase zs

/-- The score field of the multiLID result:
`float(np.clip(synthetic_score, 0.0, 1.0))` (multilid_expert.py line 330). -/
noncomputable def multilidScore (zs : List ℚ) : ℝ :=
  min 1.0 (max 0.0 (multilidAdjusted zs))

/-- `z_std = np.std(z_scores)` (multilid_expert.py line 308). -/
noncomputable def zStdDev (zs : List ℚ) : ℝ := Real.sqrt ((popVariance zs : ℚ) : ℝ)

/-- The confidence tiers of the multiLID result (multilid_expert.py lines
309-314). -/
noncomputable def multilidConfidence (zs : List ℚ) : ℝ :=
  if zStdDev zs < 1.0 then 0.9
  else if zStdDev zs < 2.0 then 0.7
  else 0.5

/-- `1e-10`, the clamp floor used against `log(0)` and zero distances. -/
def EPS : ℚ := 1e-10

/-- `np.sort(distances[i])[1:k+1]` (multilid_expert.py line 180): the row of
chunk-to-chunk distances, sorted ascending, self-distance dropped, first `k`
kept. -/
def chunkDists (row : List ℚ) (k : ℕ) : List ℚ :=
  ((row.insertionSort (fun a b => a ≤ b)).drop 1).take k

/-- The LID estimate of one chunk (multilid_expert.py lines 178-193).
`none` models `continue`: either fewer than two distances, or a value that
fails the `np.isfinite(lid) and lid > 0` check. NumPy evaluates
`-len(dists) / 0.0` to `-inf` (no exception is raised), which `np.isfinite`
rejects; the `s = 0` case therefore maps to `none`. -/
noncomputable def chunkLid (row : List ℚ) (k : ℕ) : Option ℝ :=
  let dists := chunkDists row k
  if dists.length < 2 then none
  else
    let dists' := dists.map (fun d => max d EPS)
    let dk := dists'.getLastD 0
    let ratioVals := (dists'.map (fun d => d / dk)).map (fun r => max r EPS)
    let s := ((ratioVals.map (fun r => ((r : ℚ) : ℝ))).map Real.log).sum
    if s = 0 then none
    else
      let lid := -(dists.length : ℝ) / s
      if 0 < lid then some lid else none

/-- `MultiLIDExpert._compute_lid_single_point` (multilid_expert.py lines
139-194) from the chunk distance matrix on (`squareform(pdist(chunks))`):
per-chunk LID estimates are collected and averaged, with `0.0` as the
fallback when no chunk produced a usable value. -/
noncomputable def lidSinglePoint (n : ℕ) (M : Fin n → Fin n → ℚ) (k : ℕ) : ℝ :=
  let lids := ((List.finRange n).map
    (fun i => chunkLid ((List.finRange n).map (M i)) k)).reduceOption
  if lids = [] then 0.0 else lids.sum / lids.length

/-! ### UFD expert (`src/modules/image_forensics/ufd_expert.py`) -/

/-- `UFDExpert._compute_confidence` (ufd_expert.py lines 231-257). -/
def ufdConfidence (prob logit : ℚ) (weightsStatus : String) : ℚ :=
  let baseConfidence := |prob - 0.5| * 2
  let signalFactor := min (|logit| / 2.0) 1.0
  let weightPenalty : ℚ := if weightsStatus ≠ "loaded_from_file" then 0.8 else 1.0
  let confidence := (baseConfidence * 0.6 + signalFactor * 0.4) * weightPenalty
  max 0.1 (min 0.95 confidence)

/-- The fields of the `ExpertResult` built by `UFDExpert.analyze` that the
claims concern (ufd_expert.py lines 309-325): the score, the confidence and
the `weights_status` entry of `raw_data`. -/
structure UFDOut where
  score : ℚ
  confidence : ℚ
  weightsStatus : String
deriving DecidableEq

/-- `UFDExpert.analyze`, success path (ufd_expert.py lines 283-325), from
the calibrated probability and logit on. -/
def ufdAnalyze (prob logit : ℚ) (weightsStatus : String) : UFDOut :=
  ⟨prob, ufdConfidence prob logit weightsStatus, weightsStatus⟩

/-! ### Orchestrators (`detector.py` and `forensics_pipeline.py`) -/

/-- A Python exception, as far as the orchestration needs it. -/
inductive PyError
| typeError
| other (msg : String)
deriving DecidableEq

/-- The keyword parameters `FusionEngine.__init__` accepts
(fusion_engine.py lines 27-28: `def __init__(self)` — none). -/
def fusionInitKwargs : List String := []

/-- Python call semantics for keyword arguments: passing a keyword the
callee does not declare raises `TypeError`. -/
def pyCallKwargs (accepted provided : List String) : Except PyError Unit :=
  if provided.all (fun kw => accepted.contains kw) then Except.ok ()
  else Except.error PyError.typeError

/-- `ImageForensicsDetector._lazy_load` (detector.py lines 109-163).
`preComponents` abstracts the construction of the extractor and the three
experts (lines 137-151); line 155 then calls
`FusionEngine(semantic_priority=self.enable_semantic)`. -/
def lazyLoad (preComponents : Except PyError Unit) : Except PyError Unit :=
  match preComponents with
  | Except.error e => Except.error e
  | Except.ok () => pyCallKwargs fusionInitKwargs ["semantic_priority"]

/-- The structured error result of `ImageForensicsDetector.analyze`
(detector.py lines 283-290). -/
def detectorErrorResult : ForensicResult :=
  { verdict := "ERROR"
    confidence := "N/A"
    scores := [("multiLID", 0.0), ("UFD", 0.0), ("Semantic", 0.0)]
    evidence := ["⚠️ Error durante el análisis"]
    notes := "El análisis no pudo completarse debido a un error. Verifique que la imagen sea válida y los modelos estén disponibles." }

/-- One step of an orchestrator, as recorded for the ordering claim. -/
inductive TraceEvent
| expertDone (name : String) (score : ℚ)
| semanticPrompt (multilid ufd : ℚ)
| fused
deriving DecidableEq

/-- `SemanticForensicsExpert.analyze` (semantic_expert.py lines 201-229),
returning the events it emits and its `ExpertResult`. When DeepSeek is
enabled it calls `evaluate_evidence`, whose prompt embeds the two context
values (the emitted `semanticPrompt` event); otherwise it falls back to the
arithmetic mean of the context values. -/
def semantic_analyze (ctx : Option (List (String × ℚ))) (deepseekOn : Bool)
    (responseText : String) : List TraceEvent × ExpertResult :=
  let vals := semanticCtxVals ctx
  if deepseekOn then
    let out := evaluate_evidence responseText vals.1 vals.2
    ([TraceEvent.semanticPrompt vals.1 vals.2],
      ⟨"DeepSeek Judge V13.0", out.score, 1.0, [],
        [("reasoning", RawVal.s out.reasoning), ("multilid", RawVal.q vals.1),
         ("ufd", RawVal.q vals.2)]⟩)
  else
    ([], ⟨"DeepSeek Judge V13.0", (vals.1 + vals.2) / 2, 1.0, [],
        [("reasoning", RawVal.s "DeepSeek no disponible - score promedio"),
         ("multilid", RawVal.q vals.1), ("ufd", RawVal.q vals.2)]⟩)

/-- `ForensicsPipeline.process`, success path (forensics_pipeline.py lines
88-128): the two numeric experts run first, their scores are put into
`technical_context`, the semantic judge runs on that context, and fusion
closes the run. The expert results and the response text are inputs; the
returned list records the event order. -/
def pipeline_process (multilidResult ufdResult : ExpertResult)
    (deepseekOn : Bool) (responseText : String) :
    List TraceEvent × ForensicResult :=
  let ctx := [("multilid", multilidResult.score), ("ufd", ufdResult.score)]
  let sem := semantic_analyze (some ctx) deepseekOn responseText
  (TraceEvent.expertDone "multiLID" multilidResult.score ::
     TraceEvent.expertDone "UFD" ufdResult.score ::
     (sem.1 ++ [TraceEvent.fused]),
   fuse multilidResult ufdResult (some sem.2))

/-- `ImageForensicsDetector.analyze` (detector.py lines 200-290), returning
its events and result. `_lazy_load` runs first; on any raised error the
catch-all (lines 283-290) returns the structured error result with no event
emitted. On the (unreachable) success path the experts run and the semantic
expert is called as `self._semantic.analyze(image)` (line 261) — with no
`technical_context`. -/
def detector_analyze (preComponents preprocess : Except PyError Unit)
    (multilidResult ufdResult : ExpertResult) (enableSemantic deepseekOn : Bool)
    (responseText : String) : List TraceEvent × ForensicResult :=
  match lazyLoad preComponents with
  | Except.error _ => ([], detectorErrorResult)
  | Except.ok () =>
    match preprocess with
    | Except.error _ => ([], detectorErrorResult)
    | Except.ok () =>
      if enableSemantic then
        let sem := semantic_analyze none deepseekOn responseText
        (TraceEvent.expertDone "multiLID" multilidResult.score ::
           TraceEvent.expertDone "UFD" ufdResult.score ::
           (sem.1 ++ [TraceEvent.fused]),
         fuse multilidResult ufdResult (some sem.2))
      else
        ([TraceEvent.expertDone "multiLID" multilidResult.score,
          TraceEvent.expertDone "UFD" ufdResult.score, TraceEvent.fused],
         fuse multilidResult ufdResult none)

/-! ### Verdict vocabulary for the serialization claim -/

/-- The verdict strings a `ForensicResult` of this code base can carry: the
five members of the `Verdict` enum (schemas.py lines 11-20) and the error
verdicts of the two orchestrators (detector.py line 284,
forensics_pipeline.py line 140). -/
def producedVerdictTexts : List String :=
  ["GENERADA POR IA / SINTÉTICA", "PROBABLEMENTE SINTÉTICA",
   "PROBABLEMENTE REAL", "COMPATIBLE CON FOTOGRAFÍA REAL",
   "REQUIERE VERIFICACIÓN MANUAL", "ERROR", "ERROR EN ANÁLISIS"]

/-- The verdict denotes a synthetic/IA image (`IA_CONFIRMED`,
`IA_PROBABLE`). -/
def denotesSynthetic (vt : String) : Prop :=
  vt = "GENERADA POR IA / SINTÉTICA" ∨ vt = "PROBABLEMENTE SINTÉTICA"

/-- The verdict denotes a real photograph (`REAL_PROBABLE`,
`REAL_CONFIRMED`). -/
def denotesReal (vt : String) : Prop :=
  vt = "PROBABLEMENTE REAL" ∨ vt = "COMPATIBLE CON FOTOGRAFÍA REAL"

/-- The verdict denotes an inconclusive analysis (`INCONCLUSIVE`). -/
def denotesInconclusive (vt : String) : Prop :=
  vt = "REQUIERE VERIFICACIÓN MANUAL"

/-- A language-model response whose `ai_probability_score` field is the
out-of-range value 1.5. -/
def outOfRangeResponse : String := "\x7b\"ai_probability_score\": 1.5\x7d"

/-! ### Helper lemmas -/

theorem pyRound_intCast (n : ℤ) : pyRound (n : ℚ) = n := by
  unfold pyRound
  rw [Int.floor_intCast]
  norm_num

theorem le_pyRound {q : ℚ} {n : ℤ} (h : (n : ℚ) ≤ q) : n ≤ pyRound q := by
  have hf : n ≤ ⌊q⌋ := Int.le_floor.2 h
  unfold pyRound
  split_ifs <;> omega

theorem pyRound_le {q : ℚ} {n : ℤ} (h : q ≤ (n : ℚ)) : pyRound q ≤ n := by
  have hf : ⌊q⌋ ≤ n := by
    have h2 := Int.floor_le_floor h
    rwa [Int.floor_intCast] at h2
  have hfl : (⌊q⌋ : ℚ) ≤ q := Int.floor_le q
  unfold pyRound
  split_ifs with h1 h2 h3
  · exact hf
  · have hq : (⌊q⌋ : ℚ) < q := by linarith
    have hn : (⌊q⌋ : ℚ) < (n : ℚ) := lt_of_lt_of_le hq h
    have : ⌊q⌋ < n := by exact_mod_cast hn
    omega
  · exact hf
  · have h4 : q - ⌊q⌋ = 1/2 := le_antisymm (not_lt.1 h2) (not_lt.1 h1)
    have hq : (⌊q⌋ : ℚ) < q := by linarith
    have hn : (⌊q⌋ : ℚ) < (n : ℚ) := lt_of_lt_of_le hq h
    have : ⌊q⌋ < n := by exact_mod_cast hn
    omega

theorem le_pyRound1 {q : ℚ} {n : ℤ} (h : (n : ℚ) ≤ q) : (n : ℚ) ≤ pyRound1 q := by
  unfold pyRound1
  have h10 : ((10 * n : ℤ) : ℚ) ≤ q * 10 := by push_cast; linarith
  have hr := le_pyRound h10
  have hc : ((10 * n : ℤ) : ℚ) ≤ (pyRound (q * 10) : ℚ) := by exact_mod_cast hr
  push_cast at hc
  linarith

theorem pyRound1_le {q : ℚ} {n : ℤ} (h : q ≤ (n : ℚ)) : pyRound1 q ≤ (n : ℚ) := by
  unfold pyRound1
  have h10 : q * 10 ≤ ((10 * n : ℤ) : ℚ) := by push_cast; linarith
  have hr := pyRound_le h10
  have hc : (pyRound (q * 10) : ℚ) ≤ ((10 * n : ℤ) : ℚ) := by exact_mod_cast hr
  push_cast at hc
  linarith

theorem pyRound1_tenths (k : ℤ) : pyRound1 ((k : ℚ) / 10) = (k : ℚ) / 10 := by
  unfold pyRound1
  have h : (k : ℚ) / 10 * 10 = ((k : ℤ) : ℚ) := by ring
  rw [h, pyRound_intCast]

theorem pyRound1_hundred_sub (q : ℚ) :
    pyRound1 (100 - pyRound1 q) = 100 - pyRound1 q := by
  have h : 100 - pyRound1 q = ((1000 - pyRound (q * 10) : ℤ) : ℚ) / 10 := by
    unfold pyRound1
    push_cast [Int.cast_sub]
    ring
  rw [h, pyRound1_tenths]

theorem verdict_strings_distinct : VERDICT_IA ≠ VERDICT_REAL := by decide

theorem fuse_verdict_eq (ml ufd : ExpertResult) (sem : Option ExpertResult) :
    (fuse ml ufd sem).verdict =
      if 0.60 < fuseFinalScore sem then VERDICT_IA else VERDICT_REAL := rfl

theorem fuse_confidence_eq (ml ufd : ExpertResult) (sem : Option ExpertResult) :
    (fuse ml ufd sem).confidence = "ALTA" := rfl

theorem fuse_unified_eq (ml ufd : ExpertResult) (sem : Option ExpertResult) :
    dictGet (fuse ml ufd sem).scores "unified" 0 = fuseFinalScore sem := rfl

/-! ### Claims -/

/-- C2: for every input and both values of `enable_semantic`,
`ImageForensicsDetector.analyze` returns the structured error result with
verdict `"ERROR"` and confidence `"N/A"` and never raises: `_lazy_load`
calls `FusionEngine(semantic_priority=...)`, which `FusionEngine.__init__`
does not accept, so initialization raises `TypeError` and the catch-all
converts it. -/
theorem c2_detector_analyze_always_error
    (preComponents preprocess : Except PyError Unit) (ml ufd : ExpertResult)
    (enableSemantic deepseekOn : Bool) (txt : String) :
    (detector_analyze preComponents preprocess ml ufd enableSemantic deepseekOn txt).2.verdict = "ERROR" ∧
    (detector_analyze preComponents preprocess ml ufd enableSemantic deepseekOn txt).2.confidence = "N/A" ∧
    lazyLoad (Except.ok ()) = Except.error PyError.typeError := by
  have hl : ∃ e, lazyLoad preComponents = Except.error e := by
    cases preComponents with
    | error e => exact ⟨e, rfl⟩
    | ok u => exact ⟨PyError.typeError, by cases u; rfl⟩
  obtain ⟨e, he⟩ := hl
  unfold detector_analyze
  rw [he]
  exact ⟨rfl, rfl, rfl⟩

/-- C3 counterexample: `FusionEngine.fuse` with `semantic_result=None` and
expert scores 0.3 and 0.1 uses the unified score 0.5, not the arithmetic
mean 0.2 of the numeric experts. -/
theorem c3_counterexample :
    dictGet (fuse (mkExpert "multiLID" 0.3) (mkExpert "UFD" 0.1) none).scores "unified" 0 = 0.5 ∧
    ((mkExpert "multiLID" 0.3).score + (mkExpert "UFD" 0.1).score) / 2 = 0.2 ∧
    (0.5 : ℚ) ≠ 0.2 := by
  refine ⟨fuse_unified_eq _ _ none, by norm_num [mkExpert], by norm_num⟩

/-- C3 (corrected): when `FusionEngine.fuse` is called with
`semantic_result` absent, the unified score it bases the verdict on is the
constant 0.5 (so the verdict is always the real-photograph one); the
arithmetic-mean fallback over the numeric experts lives instead in
`SemanticForensicsExpert.analyze` when DeepSeek is unavailable. -/
theorem c3_fuse_without_semantic (ml ufd : ExpertResult) (txt : String) :
    fuseFinalScore none = 0.5 ∧
    dictGet (fuse ml ufd none).scores "unified" 0 = 0.5 ∧
    (fuse ml ufd none).verdict = VERDICT_REAL ∧
    (semantic_analyze (some [("multilid", ml.score), ("ufd", ufd.score)])
        false txt).2.score = (ml.score + ufd.score) / 2 := by
  refine ⟨rfl, fuse_unified_eq _ _ none, ?_, ?_⟩
  · rw [fuse_verdict_eq]
    norm_num [fuseFinalScore]
  · simp [semantic_analyze, semanticCtxVals, dictGet, List.find?]

/-- C5: `FusionEngine.fuse` returns the synthetic verdict exactly when the
unified score exceeds 0.60 and the real verdict exactly when it is at most
0.60, and the confidence label is `"ALTA"` in both cases. -/
theorem c5_fuse_binary_threshold (ml ufd : ExpertResult)
    (sem : Option ExpertResult) :
    ((fuse ml ufd sem).verdict = VERDICT_IA ↔ 0.60 < fuseFinalScore sem) ∧
    ((fuse ml ufd sem).verdict = VERDICT_REAL ↔ fuseFinalScore sem ≤ 0.60) ∧
    (fuse ml ufd sem).confidence = "ALTA" := by
  rw [fuse_verdict_eq]
  by_cases h : (0.60 : ℚ) < fuseFinalScore sem
  · rw [if_pos h]
    refine ⟨⟨fun _ => h, fun _ => rfl⟩, ⟨fun hv => ?_, fun hle => absurd h (not_lt.2 hle)⟩,
      fuse_confidence_eq ml ufd sem⟩
    exact absurd hv verdict_strings_distinct
  · rw [if_neg h]
    refine ⟨⟨fun hv => absurd hv.symm verdict_strings_distinct, fun hlt => absurd hlt h⟩,
      ⟨fun _ => not_lt.1 h, fun _ => rfl⟩, fuse_confidence_eq ml ufd sem⟩

/-- C4 counterexample: with geometric score 0.25 (above the diffusion
threshold 0.20), visual score 0.10 and parsed language-model score 0.80,
the zone enforcement returns 0.80, below the claimed 0.85 floor: the code
only raises scores below 0.75. -/
theorem c4_counterexample :
    zoneEnforce 0.25 0.10 0.80 = 0.80 ∧ ¬(0.85 ≤ zoneEnforce 0.25 0.10 0.80) := by
  norm_num [zoneEnforce]

/-- C4 (corrected): when the geometric score is at or above the diffusion
threshold 0.20, the zone enforcement raises a parsed score below 0.75 to
exactly 0.85, returns a parsed score of at least 0.75 unchanged, and so
always returns at least 0.75 — but not necessarily 0.85. -/
theorem c4_zone1_floor (m u s : ℚ) (hm : 0.200 ≤ m) :
    (s < 0.75 → zoneEnforce m u s = 0.85) ∧
    (0.75 ≤ s → zoneEnforce m u s = s) ∧
    0.75 ≤ zoneEnforce m u s := by
  have h1 : ¬(m < 0.200 ∧ 0.40 < u) := by
    rintro ⟨h, -⟩
    linarith
  have h2 : ¬(m < 0.200 ∧ u < 0.38) := by
    rintro ⟨h, -⟩
    linarith
  unfold zoneEnforce
  rw [if_neg h1, if_neg h2, if_pos hm]
  refine ⟨fun hs => ?_, fun hs => ?_, ?_⟩
  · rw [if_pos hs]
    exact max_eq_right (by linarith)
  · rw [if_neg (not_lt.2 hs)]
  · by_cases hs : s < 0.75
    · rw [if_pos hs]
      have := le_max_right s (0.85 : ℚ)
      linarith
    · rw [if_neg hs]
      exact not_lt.1 hs

/-- Witness for `c4_zone1_floor` at geometric score 0.25, visual score
0.10 and parsed score 0. -/
theorem c4_zone1_floor_witness :
    zoneEnforce 0.25 0.10 0 = 0.85 ∧ 0.75 ≤ zoneEnforce 0.25 0.10 0 := by
  have h := c4_zone1_floor 0.25 0.10 0 (by norm_num)
  exact ⟨h.1 (by norm_num), h.2.2⟩

/-- C7 counterexample: on a response whose parsed `ai_probability_score` is
1.5 (outside [0,1]), `evaluate_evidence` with geometric score 0.25 and
visual score 0.10 returns 1.5 — the out-of-range value is not treated as a
parse failure and the returned score is neither 0.5 nor in range. -/
theorem c7_counterexample :
    (evaluate_evidence outOfRangeResponse 0.25 0.10).score = 1.5 ∧
    ¬((evaluate_evidence outOfRangeResponse 0.25 0.10).score ≤ 1) ∧
    (evaluate_evidence outOfRangeResponse 0.25 0.10).score ≠ 0.5 := by
  have h1 : findSpan (thinkSplit outOfRangeResponse.toList) =
      some outOfRangeResponse.toList := by decide
  have h2 : jsonLoads outOfRangeResponse.toList =
      some [("ai_probability_score", JVal.num 15 1)] := by decide
  have h1' : findSpan (thinkSplit outOfRangeResponse.data) =
      some outOfRangeResponse.data := h1
  have h2' : jsonLoads outOfRangeResponse.data =
      some [("ai_probability_score", JVal.num 15 1)] := h2
  have h3 : (evaluate_evidence outOfRangeResponse 0.25 0.10).score =
      zoneEnforce 0.25 0.10 ((15 : ℚ) / 10 ^ 1) := by
    simp [evaluate_evidence, h1', h2', jsonGet, pyFloat, JVal.toRat, List.find?]
  rw [h3]
  norm_num [zoneEnforce]

/-- C7 (corrected): the parsing of `evaluate_evidence` never raises — a
missing JSON object or a missing `ai_probability_score` field falls back to
the score 0.5 (then zone enforcement applies), and a `json.loads` failure is
converted by the handler into score 0.5 — but an out-of-range numeric field
value is NOT treated as a parse failure: it is passed as-is to the zone
enforcement, so the returned score can lie outside [0,1]. -/
theorem c7_parse_fallbacks (text : String) (m u : ℚ) :
    (findSpan (thinkSplit text.toList) = none →
      evaluate_evidence text m u =
        ⟨zoneEnforce m u 0.5, "No se pudo parsear respuesta" ++ zoneSuffix m u 0.5⟩) ∧
    (∀ span, findSpan (thinkSplit text.toList) = some span →
      jsonLoads span = none →
      evaluate_evidence text m u = ⟨0.5, "Error en juicio IA"⟩) ∧
    (∀ span data, findSpan (thinkSplit text.toList) = some span →
      jsonLoads span = some data →
      jsonGet data "ai_probability_score" = none →
      (evaluate_evidence text m u).score = zoneEnforce m u 0.5) ∧
    (∀ span data mant sc, findSpan (thinkSplit text.toList) = some span →
      jsonLoads span = some data →
      jsonGet data "ai_probability_score" = some (JVal.num mant sc) →
      (evaluate_evidence text m u).score = zoneEnforce m u ((mant : ℚ) / 10 ^ sc)) := by
  refine ⟨fun h => ?_, fun span h hj => ?_, fun span data h hj hg => ?_,
    fun span data mant sc h hj hg => ?_⟩
  · have h' : findSpan (thinkSplit text.data) = none := h
    simp [evaluate_evidence, h']
  · have h' : findSpan (thinkSplit text.data) = some span := h
    simp [evaluate_evidence, h', hj]
  · have h' : findSpan (thinkSplit text.data) = some span := h
    simp [evaluate_evidence, h', hj, hg, pyFloat, JVal.toRat]
    norm_num
  · have h' : findSpan (thinkSplit text.data) = some span := h
    simp [evaluate_evidence, h', hj, hg, pyFloat, JVal.toRat]

/-- Witness for `c7_parse_fallbacks` on a response with no JSON object and
neutral expert scores. -/
theorem c7_parse_fallbacks_witness :
    evaluate_evidence "sin json" 0.5 0.5 =
      ⟨zoneEnforce 0.5 0.5 0.5, "No se pudo parsear respuesta" ++ zoneSuffix 0.5 0.5 0.5⟩ := by
  exact (c7_parse_fallbacks "sin json" 0.5 0.5).1 (by decide)

/-- C8 counterexample: with probability 0.5 and logit 0 the unpenalized
confidence is 0, so both the calibrated-init and the loaded-from-file
confidence clip to the 0.1 floor — the penalized confidence is NOT strictly
less. -/
theorem c8_counterexample :
    ufdConfidence 0.5 0 "calibrated_init" = 0.1 ∧
    ufdConfidence 0.5 0 "loaded_from_file" = 0.1 ∧
    ¬(ufdConfidence 0.5 0 "calibrated_init" < ufdConfidence 0.5 0 "loaded_from_file") ∧
    "calibrated_init" ≠ "loaded_from_file" := by
  refine ⟨?_, ?_, ?_, by decide⟩ <;> norm_num [ufdConfidence]

/-- C8 (corrected): `UFDExpert.analyze` records `weights_status` in its raw
data, and with `weights_status ≠ "loaded_from_file"` the computed confidence
is at most — and, whenever the unpenalized pre-clip confidence exceeds the
0.1 clip floor, strictly less than — the confidence computed from identical
probability and logit with loaded weights. At the floor both clip to 0.1
and are equal. -/
theorem c8_weight_penalty (prob logit : ℚ) (st : String)
    (hst : st ≠ "loaded_from_file") (h0 : 0 ≤ prob) (h1 : prob ≤ 1) :
    (ufdAnalyze prob logit st).weightsStatus = st ∧
    (ufdAnalyze prob logit st).confidence = ufdConfidence prob logit st ∧
    ufdConfidence prob logit st ≤ ufdConfidence prob logit "loaded_from_file" ∧
    (0.1 < |prob - 0.5| * 2 * 0.6 + min (|logit| / 2.0) 1.0 * 0.4 →
      ufdConfidence prob logit st < ufdConfidence prob logit "loaded_from_file") := by
  have hb0 : (0 : ℚ) ≤ |prob - 0.5| * 2 := by positivity
  have hb1 : |prob - 0.5| * 2 ≤ 1 := by
    have : |prob - 0.5| ≤ 0.5 := abs_le.2 ⟨by linarith, by linarith⟩
    linarith
  have hs0 : (0 : ℚ) ≤ min (|logit| / 2.0) 1.0 := le_min (by positivity) (by norm_num)
  have hs1 : min (|logit| / 2.0) 1.0 ≤ 1 := le_trans (min_le_right _ _) (by norm_num)
  set r : ℚ := |prob - 0.5| * 2 * 0.6 + min (|logit| / 2.0) 1.0 * 0.4 with hr
  have hr0 : 0 ≤ r := by rw [hr]; nlinarith
  have hr1 : r ≤ 1 := by rw [hr]; nlinarith
  have hcs : ufdConfidence prob logit st = max 0.1 (min 0.95 (r * 0.8)) := by
    simp only [ufdConfidence, if_pos hst, hr]
  have hcl : ufdConfidence prob logit "loaded_from_file" = max 0.1 (min 0.95 (r * 1.0)) := by
    have hne : ¬("loaded_from_file" ≠ "loaded_from_file") := by simp
    simp only [ufdConfidence, if_neg hne, hr]
  refine ⟨rfl, rfl, ?_, fun hlt => ?_⟩
  · rw [hcs, hcl]
    exact max_le_max le_rfl (min_le_min le_rfl (by nlinarith))
  · rw [hcs, hcl, (by norm_num : r * 1.0 = r)]
    have hmin : min (0.95 : ℚ) (r * 0.8) = r * 0.8 := min_eq_right (by nlinarith)
    have hminr : (0.1 : ℚ) < min 0.95 r := lt_min (by norm_num) hlt
    rw [hmin, max_eq_right (le_of_lt hminr)]
    refine max_lt hminr (lt_min (by nlinarith) (by nlinarith))

/-- Witness for `c8_weight_penalty` at probability 1, logit 2 and
`weights_status = "calibrated_init"`: the penalized confidence 0.76 is
strictly below the unpenalized 0.95. -/
theorem c8_weight_penalty_witness :
    ufdConfidence 1 2 "calibrated_init" < ufdConfidence 1 2 "loaded_from_file" ∧
    (ufdAnalyze 1 2 "calibrated_init").weightsStatus = "calibrated_init" := by
  have h := c8_weight_penalty 1 2 "calibrated_init" (by decide) (by decide) (by decide)
  refine ⟨h.2.2.2 ?_, h.1⟩
  have ha : |(1 : ℚ) - 0.5| = 0.5 := by norm_num [abs_of_pos]
  have hb : |(2 : ℚ)| = 2 := by norm_num [abs_of_pos]
  rw [ha, hb]
  norm_num

theorem pyRound1_intCast (n : ℤ) : pyRound1 ((n : ℤ) : ℚ) = (n : ℚ) := by
  unfold pyRound1
  rw [show ((n : ℤ) : ℚ) * 10 = ((10 * n : ℤ) : ℚ) by push_cast; ring, pyRound_intCast]
  push_cast
  ring

theorem toDictRaw_syn (vt : String)
    (hc : (inStr "SINTÉTICA" vt || inStr "IA" (pyUpper vt)) = true) (u : ℚ) :
    toDictRaw vt u = max u 0.85 := by
  have hge : ¬(max u 0.85 < 0.5) :=
    not_lt.2 (le_trans (by norm_num) (le_max_right u 0.85))
  simp only [toDictRaw, hc, if_true, if_neg hge]

theorem toDictRaw_real (vt : String)
    (hc1 : (inStr "SINTÉTICA" vt || inStr "IA" (pyUpper vt)) = false)
    (hc2 : inStr "REAL" (pyUpper vt) = true) (u : ℚ) :
    toDictRaw vt u = min u 0.20 := by
  simp only [toDictRaw, hc1, hc2, if_true, Bool.false_eq_true, if_false]

theorem toDictRaw_manual (vt : String)
    (hc1 : (inStr "SINTÉTICA" vt || inStr "IA" (pyUpper vt)) = false)
    (hc2 : inStr "REAL" (pyUpper vt) = false)
    (hc3 : (inStr "MANUAL" vt || inStr "INCONCLUSIVE" vt) = true) (u : ℚ) :
    toDictRaw vt u = 0.50 := by
  simp only [toDictRaw, hc1, hc2, hc3, if_true, Bool.false_eq_true, if_false]

theorem toDictRaw_passthrough (vt : String)
    (hc1 : (inStr "SINTÉTICA" vt || inStr "IA" (pyUpper vt)) = false)
    (hc2 : inStr "REAL" (pyUpper vt) = false)
    (hc3 : (inStr "MANUAL" vt || inStr "INCONCLUSIVE" vt) = false) (u : ℚ) :
    toDictRaw vt u = u := by
  simp only [toDictRaw, hc1, hc2, hc3, Bool.false_eq_true, if_false]

theorem toDictRaw_cases (vt : String) (hvt : vt ∈ producedVerdictTexts) (u : ℚ) :
    (denotesSynthetic vt → 0.85 ≤ toDictRaw vt u) ∧
    (denotesReal vt → toDictRaw vt u ≤ 0.20) ∧
    (denotesInconclusive vt → toDictRaw vt u = 0.50) ∧
    (0 ≤ u → u ≤ 1 → 0 ≤ toDictRaw vt u ∧ toDictRaw vt u ≤ 1) := by
  simp only [producedVerdictTexts, List.mem_cons, List.not_mem_nil, or_false] at hvt
  rcases hvt with h | h | h | h | h | h | h <;> subst h
  · rw [toDictRaw_syn _ (by decide)]
    refine ⟨fun _ => le_max_right _ _, fun hd => ?_, fun hd => ?_, fun h0 h1 =>
      ⟨le_trans (by norm_num) (le_max_right _ _), max_le h1 (by norm_num)⟩⟩
    · rcases hd with h | h <;> exact absurd h (by decide)
    · exact absurd hd (by simp [denotesInconclusive])
  · rw [toDictRaw_syn _ (by decide)]
    refine ⟨fun _ => le_max_right _ _, fun hd => ?_, fun hd => ?_, fun h0 h1 =>
      ⟨le_trans (by norm_num) (le_max_right _ _), max_le h1 (by norm_num)⟩⟩
    · rcases hd with h | h <;> exact absurd h (by decide)
    · exact absurd hd (by simp [denotesInconclusive])
  · rw [toDictRaw_real _ (by decide) (by decide)]
    refine ⟨fun hd => ?_, fun _ => min_le_right _ _, fun hd => ?_, fun h0 h1 =>
      ⟨le_min h0 (by norm_num), le_trans (min_le_left _ _) h1⟩⟩
    · rcases hd with h | h <;> exact absurd h (by decide)
    · exact absurd hd (by simp [denotesInconclusive])
  · rw [toDictRaw_real _ (by decide) (by decide)]
    refine ⟨fun hd => ?_, fun _ => min_le_right _ _, fun hd => ?_, fun h0 h1 =>
      ⟨le_min h0 (by norm_num), le_trans (min_le_left _ _) h1⟩⟩
    · rcases hd with h | h <;> exact absurd h (by decide)
    · exact absurd hd (by simp [denotesInconclusive])
  · rw [toDictRaw_manual _ (by decide) (by decide) (by decide)]
    refine ⟨fun hd => ?_, fun hd => ?_, fun _ => rfl, fun _ _ => ⟨by norm_num, by norm_num⟩⟩
    · rcases hd with h | h <;> exact absurd h (by decide)
    · rcases hd with h | h <;> exact absurd h (by decide)
  · rw [toDictRaw_passthrough _ (by decide) (by decide) (by decide)]
    refine ⟨fun hd => ?_, fun hd => ?_, fun hd => ?_, fun h0 h1 => ⟨h0, h1⟩⟩
    · rcases hd with h | h <;> exact absurd h (by decide)
    · rcases hd with h | h <;> exact absurd h (by decide)
    · exact absurd hd (by simp [denotesInconclusive])
  · rw [toDictRaw_passthrough _ (by decide) (by decide) (by decide)]
    refine ⟨fun hd => ?_, fun hd => ?_, fun hd => ?_, fun h0 h1 => ⟨h0, h1⟩⟩
    · rcases hd with h | h <;> exact absurd h (by decide)
    · rcases hd with h | h <;> exact absurd h (by decide)
    · exact absurd hd (by simp [denotesInconclusive])

theorem fuse_unified_get (ml ufd : ExpertResult) (sem : Option ExpertResult) (dflt : ℚ) :
    dictGet (fuse ml ufd sem).scores "unified" dflt = fuseFinalScore sem := rfl

theorem outOfRange_findSpan :
    findSpan (thinkSplit outOfRangeResponse.data) = some outOfRangeResponse.data := by decide

theorem outOfRange_jsonLoads :
    jsonLoads outOfRangeResponse.data = some [("ai_probability_score", JVal.num 15 1)] := by
  decide

theorem outOfRange_eval_score (m u : ℚ) :
    (evaluate_evidence outOfRangeResponse m u).score = zoneEnforce m u 1.5 := by
  simp [evaluate_evidence, outOfRange_findSpan, outOfRange_jsonLoads, jsonGet, pyFloat,
    JVal.toRat, List.find?]
  norm_num

theorem to_dict_ai_syn (r : ForensicResult)
    (hc : (inStr "SINTÉTICA" r.verdict || inStr "IA" (pyUpper r.verdict)) = true) :
    r.to_dict.ai_probability = pyRound1 (max (dictGet r.scores "unified" 0.5) 0.85 * 100) := by
  have h : r.to_dict.ai_probability =
      pyRound1 (toDictRaw r.verdict (dictGet r.scores "unified" 0.5) * 100) := rfl
  rw [h, toDictRaw_syn r.verdict hc]

/-- C1 counterexample: an actual pipeline run in which the judge returns
the out-of-range score 1.5 (the response of `outOfRangeResponse`, cf. C7)
produces a `ForensicResult` with the synthetic verdict whose serialized
`ai_probability` is 150 — not on the claimed 0-100 scale. -/
theorem c1_counterexample :
    denotesSynthetic ((pipeline_process (mkExpert "multiLID" 0.25) (mkExpert "UFD" 0.10)
        true outOfRangeResponse).2).verdict ∧
    ((pipeline_process (mkExpert "multiLID" 0.25) (mkExpert "UFD" 0.10)
        true outOfRangeResponse).2).to_dict.ai_probability = 150 ∧
    ¬(((pipeline_process (mkExpert "multiLID" 0.25) (mkExpert "UFD" 0.10)
        true outOfRangeResponse).2).to_dict.ai_probability ≤ 100) := by
  have hctx : semanticCtxVals (some [("multilid", (0.25 : ℚ)), ("ufd", (0.10 : ℚ))]) =
      (0.25, 0.10) := by
    simp [semanticCtxVals, dictGet, List.find?]
  have hsem : (semantic_analyze (some [("multilid", (0.25 : ℚ)), ("ufd", (0.10 : ℚ))])
      true outOfRangeResponse).2.score = 1.5 := by
    simp only [semantic_analyze, hctx, if_true]
    rw [outOfRange_eval_score]
    norm_num [zoneEnforce]
  have hres : (pipeline_process (mkExpert "multiLID" 0.25) (mkExpert "UFD" 0.10)
      true outOfRangeResponse).2 =
      fuse (mkExpert "multiLID" 0.25) (mkExpert "UFD" 0.10)
        (some ((semantic_analyze (some [("multilid", (0.25 : ℚ)), ("ufd", (0.10 : ℚ))])
          true outOfRangeResponse).2)) := rfl
  have hff : fuseFinalScore (some ((semantic_analyze
      (some [("multilid", (0.25 : ℚ)), ("ufd", (0.10 : ℚ))]) true outOfRangeResponse).2)) =
      1.5 := hsem
  have hverdict : (pipeline_process (mkExpert "multiLID" 0.25) (mkExpert "UFD" 0.10)
      true outOfRangeResponse).2.verdict = VERDICT_IA := by
    rw [hres, fuse_verdict_eq, hff, if_pos (by norm_num : (0.60 : ℚ) < 1.5)]
  have hunified : dictGet (pipeline_process (mkExpert "multiLID" 0.25) (mkExpert "UFD" 0.10)
      true outOfRangeResponse).2.scores "unified" 0.5 = 1.5 := by
    rw [hres, fuse_unified_get, hff]
  have hc : (inStr "SINTÉTICA" ((pipeline_process (mkExpert "multiLID" 0.25)
      (mkExpert "UFD" 0.10) true outOfRangeResponse).2).verdict ||
      inStr "IA" (pyUpper ((pipeline_process (mkExpert "multiLID" 0.25)
      (mkExpert "UFD" 0.10) true outOfRangeResponse).2).verdict)) = true := by
    rw [hverdict]
    decide
  have hai : ((pipeline_process (mkExpert "multiLID" 0.25) (mkExpert "UFD" 0.10)
      true outOfRangeResponse).2).to_dict.ai_probability = 150 := by
    rw [to_dict_ai_syn _ hc, hunified, max_eq_left (by norm_num : (0.85 : ℚ) ≤ 1.5)]
    rw [show (1.5 : ℚ) * 100 = ((150 : ℤ) : ℚ) by norm_num, pyRound1_intCast]
    norm_num
  refine ⟨?_, hai, ?_⟩
  · rw [hverdict]
    exact Or.inl rfl
  · rw [hai]
    norm_num

/-- C1 (corrected): for every `ForensicResult` carrying a verdict this code
base produces, the serialized `to_dict` output satisfies: a synthetic/IA
verdict forces `ai_probability ≥ 85`, a real verdict forces
`ai_probability ≤ 20`, the inconclusive verdict pins it at exactly 50, and
in every case `real_probability = 100 - ai_probability` with
`ai_probability` a one-decimal value. The 0-100-scale bound, however, holds
only when the unified score lies in [0,1] — it fails on pipeline runs whose
judge score is out of range (see the counterexample). -/
theorem c1_to_dict_verdict_bands (r : ForensicResult)
    (hv : r.verdict ∈ producedVerdictTexts) :
    (denotesSynthetic r.verdict → 85 ≤ r.to_dict.ai_probability) ∧
    (denotesReal r.verdict → r.to_dict.ai_probability ≤ 20) ∧
    (denotesInconclusive r.verdict → r.to_dict.ai_probability = 50) ∧
    r.to_dict.real_probability = 100 - r.to_dict.ai_probability ∧
    (∃ k : ℤ, r.to_dict.ai_probability = (k : ℚ) / 10) ∧
    (0 ≤ dictGet r.scores "unified" 0.5 → dictGet r.scores "unified" 0.5 ≤ 1 →
      0 ≤ r.to_dict.ai_probability ∧ r.to_dict.ai_probability ≤ 100) := by
  obtain ⟨hsyn, hreal, hinc, hbounds⟩ :=
    toDictRaw_cases r.verdict hv (dictGet r.scores "unified" 0.5)
  have hai : r.to_dict.ai_probability =
      pyRound1 (toDictRaw r.verdict (dictGet r.scores "unified" 0.5) * 100) := rfl
  have hrp : r.to_dict.real_probability =
      pyRound1 (100 - pyRound1 (toDictRaw r.verdict (dictGet r.scores "unified" 0.5) * 100)) := rfl
  refine ⟨fun hd => ?_, fun hd => ?_, fun hd => ?_, ?_, ?_, fun h0 h1 => ⟨?_, ?_⟩⟩
  · have hb : ((85 : ℤ) : ℚ) ≤ toDictRaw r.verdict (dictGet r.scores "unified" 0.5) * 100 := by
      have := hsyn hd
      push_cast
      linarith
    have := le_pyRound1 hb
    rw [hai]
    exact_mod_cast this
  · have hb : toDictRaw r.verdict (dictGet r.scores "unified" 0.5) * 100 ≤ ((20 : ℤ) : ℚ) := by
      have := hreal hd
      push_cast
      linarith
    have := pyRound1_le hb
    rw [hai]
    exact_mod_cast this
  · rw [hai, hinc hd]
    rw [show (0.50 : ℚ) * 100 = ((50 : ℤ) : ℚ) by norm_num]
    rw [pyRound1_intCast]
    norm_num
  · rw [hrp, hai, pyRound1_hundred_sub]
  · exact ⟨pyRound (toDictRaw r.verdict (dictGet r.scores "unified" 0.5) * 100 * 10), rfl⟩
  · obtain ⟨hr0, -⟩ := hbounds h0 h1
    have hb : ((0 : ℤ) : ℚ) ≤ toDictRaw r.verdict (dictGet r.scores "unified" 0.5) * 100 := by
      push_cast
      linarith
    have := le_pyRound1 hb
    rw [hai]
    exact_mod_cast this
  · obtain ⟨-, hr1⟩ := hbounds h0 h1
    have hb : toDictRaw r.verdict (dictGet r.scores "unified" 0.5) * 100 ≤ ((100 : ℤ) : ℚ) := by
      push_cast
      linarith
    have := pyRound1_le hb
    rw [hai]
    exact_mod_cast this

/-- Witness for `c1_to_dict_verdict_bands`: the synthetic verdict with
unified score 0 is forced up to `ai_probability ≥ 85`, with
`real_probability = 100 - ai_probability` and, the score being in [0,1],
`ai_probability ≤ 100`. -/
theorem c1_to_dict_verdict_bands_witness :
    85 ≤ (ForensicResult.mk "GENERADA POR IA / SINTÉTICA" "ALTA"
      [("unified", 0)] [] "").to_dict.ai_probability ∧
    (ForensicResult.mk "GENERADA POR IA / SINTÉTICA" "ALTA"
      [("unified", 0)] [] "").to_dict.real_probability =
      100 - (ForensicResult.mk "GENERADA POR IA / SINTÉTICA" "ALTA"
      [("unified", 0)] [] "").to_dict.ai_probability ∧
    (ForensicResult.mk "GENERADA POR IA / SINTÉTICA" "ALTA"
      [("unified", 0)] [] "").to_dict.ai_probability ≤ 100 := by
  have h := c1_to_dict_verdict_bands
    (ForensicResult.mk "GENERADA POR IA / SINTÉTICA" "ALTA" [("unified", 0)] [] "")
    (by decide)
  exact ⟨h.1 (Or.inl rfl), h.2.2.2.1, (h.2.2.2.2.2 (by decide) (by decide)).2⟩

theorem le_foldr_max (l : List ℚ) (x : ℚ) (hx : x ∈ l) : x ≤ l.foldr max 0 := by
  induction l with
  | nil => cases hx
  | cons a t ih =>
    rcases List.mem_cons.1 hx with h | h
    · rw [h]
      exact le_max_left _ _
    · exact le_trans (ih h) (le_max_right _ _)

theorem le_maxAbsZ {z : ℚ} {zs : List ℚ} (h : z ∈ zs) : |z| ≤ maxAbsZ zs :=
  le_foldr_max _ _ (List.mem_map_of_mem _ h)

theorem sigmoid_pos (x : ℝ) : 0 < sigmoid x := by
  unfold sigmoid
  positivity

/-- C6: in the non-error path of `MultiLIDExpert.analyze`, the returned
score is `sigmoid(-mean(z) - 1)` raised to at least 0.75 when some `|z|`
exceeds 3.0 and to at least 0.5 when some `|z|` exceeds 2.0 (then clipped
to [0,1]), and the confidence is 0.9 / 0.7 / 0.5 according to whether the
standard deviation of the z-scores is below 1.0, below 2.0, or neither. -/
theorem c6_multilid_aggregation (zs : List ℚ) :
    multilidScore zs = min 1.0 (max 0.0 (multilidAdjusted zs)) ∧
    ((∃ z ∈ zs, 3 < |z|) → (0.75 : ℝ) ≤ multilidScore zs) ∧
    ((∃ z ∈ zs, 2 < |z|) → (0.5 : ℝ) ≤ multilidScore zs) ∧
    (zStdDev zs < 1.0 → multilidConfidence zs = 0.9) ∧
    (1.0 ≤ zStdDev zs → zStdDev zs < 2.0 → multilidConfidence zs = 0.7) ∧
    (2.0 ≤ zStdDev zs → multilidConfidence zs = 0.5) := by
  refine ⟨rfl, fun h3 => ?_, fun h2 => ?_, fun hc => ?_, fun hc1 hc2 => ?_, fun hc => ?_⟩
  · obtain ⟨z, hz, hgt⟩ := h3
    have hm : (3 : ℚ) < maxAbsZ zs := lt_of_lt_of_le hgt (le_maxAbsZ hz)
    have hmr : (3.0 : ℝ) < (maxAbsZ zs : ℝ) := by
      rw [show (3.0 : ℝ) = ((3 : ℚ) : ℝ) by norm_num]
      exact_mod_cast hm
    unfold multilidScore multilidAdjusted
    rw [if_pos hmr]
    refine le_min (by norm_num) (le_trans (le_max_right _ _) (le_max_right _ _))
  · obtain ⟨z, hz, hgt⟩ := h2
    have hm : (2 : ℚ) < maxAbsZ zs := lt_of_lt_of_le hgt (le_maxAbsZ hz)
    have hmr : (2.0 : ℝ) < (maxAbsZ zs : ℝ) := by
      rw [show (2.0 : ℝ) = ((2 : ℚ) : ℝ) by norm_num]
      exact_mod_cast hm
    unfold multilidScore multilidAdjusted
    by_cases h3m : (3.0 : ℝ) < (maxAbsZ zs : ℝ)
    · rw [if_pos h3m]
      refine le_min (by norm_num)
        (le_trans (le_trans (by norm_num) (le_max_right (multilidBase zs) 0.75))
          (le_max_right _ _))
    · rw [if_neg h3m, if_pos hmr]
      refine le_min (by norm_num) (le_trans (le_max_right _ _) (le_max_right _ _))
  · unfold multilidConfidence
    rw [if_pos hc]
  · unfold multilidConfidence
    rw [if_neg (not_lt.2 hc1), if_pos hc2]
  · unfold multilidConfidence
    rw [if_neg (not_lt.2 (le_trans (by norm_num) hc)), if_neg (not_lt.2 hc)]

/-- Witness for `c6_multilid_aggregation` on the z-score list `[4]`: the
score is floored at 0.75 and the confidence is 0.9. -/
theorem c6_multilid_aggregation_witness :
    (0.75 : ℝ) ≤ multilidScore [4] ∧ multilidConfidence [4] = 0.9 := by
  have h := c6_multilid_aggregation [4]
  refine ⟨h.2.1 ⟨4, by simp, by rw [abs_of_pos] <;> norm_num⟩, h.2.2.2.1 ?_⟩
  have hv : popVariance [4] = 0 := by norm_num [popVariance, listMean]
  unfold zStdDev
  rw [hv]
  rw [show (((0 : ℚ) : ℝ)) = (0 : ℝ) by norm_num, Real.sqrt_zero]
  norm_num

theorem sorted_replicate_zero_cons (d : ℚ) (hd : 0 ≤ d) (m : ℕ) :
    (0 :: List.replicate m d).Sorted (fun a b => a ≤ b) := by
  refine List.sorted_cons.2 ⟨?_, ?_⟩
  · intro b hb
    rw [List.eq_of_mem_replicate hb]
    exact hd
  · induction m with
    | zero => simp
    | succ k ih =>
      rw [List.replicate_succ]
      refine List.sorted_cons.2 ⟨?_, ih⟩
      intro b hb
      rw [List.eq_of_mem_replicate hb]

theorem row_perm_const (n : ℕ) (d : ℚ) (i : Fin n) :
    List.Perm ((List.finRange n).map (fun j => if i = j then 0 else d))
      (0 :: List.replicate (n - 1) d) := by
  have hmem : i ∈ List.finRange n := List.mem_finRange i
  have h1 := (List.perm_cons_erase hmem).map (fun j => if i = j then 0 else d)
  rw [List.map_cons, if_pos rfl] at h1
  have h2 : ((List.finRange n).erase i).map (fun j => if i = j then (0 : ℚ) else d) =
      List.replicate (n - 1) d := by
    refine List.eq_replicate_iff.2 ⟨?_, ?_⟩
    · rw [List.length_map, List.length_erase_of_mem hmem, List.length_finRange]
    · intro b hb
      obtain ⟨j, hj, hbj⟩ := List.mem_map.1 hb
      have hji : j ≠ i := ((List.Nodup.mem_erase_iff (List.nodup_finRange n)).1 hj).1
      rw [← hbj, if_neg (fun he => hji he.symm)]
  rw [h2] at h1
  exact h1

theorem sorted_row_const (n : ℕ) (d : ℚ) (hd : 0 ≤ d) (i : Fin n) :
    List.insertionSort (fun a b => a ≤ b)
      ((List.finRange n).map (fun j => if i = j then 0 else d)) =
      0 :: List.replicate (n - 1) d :=
  List.eq_of_perm_of_sorted
    ((List.perm_insertionSort _ _).trans (row_perm_const n d i))
    (List.sorted_insertionSort _ _)
    (sorted_replicate_zero_cons d hd (n - 1))

theorem getLastD_replicate (m : ℕ) (e d : ℚ) :
    (List.replicate (m + 1) e).getLastD d = e := by
  induction m generalizing d with
  | zero => rfl
  | succ k ih =>
    rw [List.replicate_succ, List.getLastD_cons]
    exact ih e

theorem reduceOption_replicate_none (n : ℕ) :
    (List.replicate n (none : Option ℝ)).reduceOption = [] := by
  induction n with
  | zero => rfl
  | succ k ih =>
    rw [List.replicate_succ, List.reduceOption_cons_of_none, ih]

theorem chunkLid_const_row (n k : ℕ) (d : ℚ) (hd : 0 ≤ d) (i : Fin n) :
    chunkLid ((List.finRange n).map (fun j => if i = j then 0 else d)) k = none := by
  unfold chunkLid chunkDists
  rw [sorted_row_const n d hd i, List.drop_one, List.tail_cons, List.take_replicate]
  by_cases hm : (List.replicate (min k (n - 1)) d).length < 2
  · rw [if_pos hm]
  · rw [if_neg hm]
    rw [List.length_replicate] at hm
    obtain ⟨m, hmk⟩ : ∃ m, min k (n - 1) = m + 2 := ⟨min k (n - 1) - 2, by omega⟩
    rw [hmk]
    have he : (0 : ℚ) < max d EPS :=
      lt_of_lt_of_le (by norm_num [EPS]) (le_max_right _ _)
    have hlast : (List.replicate (m + 2) (max d EPS)).getLastD 0 = max d EPS :=
      getLastD_replicate (m + 1) _ _
    have hv : max (max d EPS / max d EPS) EPS = (1 : ℚ) := by
      rw [div_self (ne_of_gt he)]
      exact max_eq_left (by norm_num [EPS])
    simp only [List.map_replicate, hlast, hv, Rat.cast_one, Real.log_one,
      List.sum_replicate, smul_zero, if_true]

/-- C9: when every chunk-to-chunk distance is the same (degenerate
geometry), `_compute_lid_single_point` does not fail with a division by
zero: in each per-chunk estimate the log-ratio sum is exactly zero, NumPy's
division yields `-inf` (not an exception), `np.isfinite` rejects it, and
the function returns the defined fallback 0.0 — never NaN or infinity. -/
theorem c9_lid_degenerate (n k : ℕ) (d : ℚ) (M : Fin n → Fin n → ℚ)
    (hM : ∀ i j, M i j = if i = j then 0 else d) (hd : 0 ≤ d) :
    lidSinglePoint n M k = 0 := by
  unfold lidSinglePoint
  have hall : (List.finRange n).map (fun i => chunkLid ((List.finRange n).map (M i)) k) =
      List.replicate n (none : Option ℝ) := by
    refine List.eq_replicate_iff.2 ⟨by rw [List.length_map, List.length_finRange], ?_⟩
    intro b hb
    obtain ⟨i, hi, hbi⟩ := List.mem_map.1 hb
    have hrow : (List.finRange n).map (M i) =
        (List.finRange n).map (fun j => if i = j then 0 else d) := by
      exact List.map_congr_left (fun j hj => hM i j)
    rw [← hbi, hrow, chunkLid_const_row n k d hd i]
  rw [hall, reduceOption_replicate_none]
  norm_num

/-- Witness for `c9_lid_degenerate`: a 4-chunk matrix whose off-diagonal
distances are all 5 yields the 0.0 fallback. -/
theorem c9_lid_degenerate_witness :
    lidSinglePoint 4 (fun i j => if i = j then 0 else 5) 20 = 0 :=
  c9_lid_degenerate 4 20 5 _ (fun i j => rfl) (by decide)

/-- C10: in `ForensicsPipeline.process` the semantic judge runs only after
both numeric experts, and the geometric and visual values embedded in the
prompt it renders are exactly the multiLID and UFD scores of that same run;
in `ImageForensicsDetector.analyze` the semantic judge is never invoked at
all, because `_lazy_load` fails before any expert runs (see C2), so the
property holds vacuously there. -/
theorem c10_semantic_invocation (ml ufd : ExpertResult) (deepseekOn : Bool)
    (txt : String) (preComponents preprocess : Except PyError Unit)
    (ml2 ufd2 : ExpertResult) (enableSemantic dsOn2 : Bool) (txt2 : String) :
    (∀ g v, TraceEvent.semanticPrompt g v ∈ (pipeline_process ml ufd deepseekOn txt).1 →
      g = ml.score ∧ v = ufd.score ∧
      ∃ pre suf, (pipeline_process ml ufd deepseekOn txt).1 =
          pre ++ TraceEvent.semanticPrompt g v :: suf ∧
        TraceEvent.expertDone "multiLID" ml.score ∈ pre ∧
        TraceEvent.expertDone "UFD" ufd.score ∈ pre) ∧
    (∀ g v, TraceEvent.semanticPrompt g v ∉
      (detector_analyze preComponents preprocess ml2 ufd2 enableSemantic dsOn2 txt2).1) := by
  have hctx : semanticCtxVals (some [("multilid", ml.score), ("ufd", ufd.score)]) =
      (ml.score, ufd.score) := by
    simp [semanticCtxVals, dictGet, List.find?]
  constructor
  · intro g v hmem
    cases deepseekOn with
    | false => simp [pipeline_process, semantic_analyze, hctx] at hmem
    | true =>
      simp only [pipeline_process, semantic_analyze, hctx, if_true,
        List.cons_append, List.nil_append, List.mem_cons, List.not_mem_nil,
        or_false] at hmem
      rcases hmem with h | h | h | h
      · exact absurd h (by simp)
      · exact absurd h (by simp)
      · obtain ⟨hg, hv⟩ := TraceEvent.semanticPrompt.inj h
        subst hg
        subst hv
        refine ⟨rfl, rfl, [TraceEvent.expertDone "multiLID" ml.score,
          TraceEvent.expertDone "UFD" ufd.score], [TraceEvent.fused], ?_, by simp, by simp⟩
        simp [pipeline_process, semantic_analyze, hctx]
      · exact absurd h (by simp)
  · intro g v hmem
    cases preComponents with
    | error e => simp [detector_analyze, lazyLoad] at hmem
    | ok u =>
      cases u
      simp [detector_analyze, lazyLoad, pyCallKwargs, fusionInitKwargs] at hmem

/-- Witness for `c10_semantic_invocation`: in a concrete pipeline run with
expert scores 0.3 and 0.1, the rendered prompt embeds exactly those two
scores. -/
theorem c10_semantic_invocation_witness :
    (0.3 : ℚ) = (mkExpert "multiLID" 0.3).score ∧
    (0.1 : ℚ) = (mkExpert "UFD" 0.1).score := by
  have h := c10_semantic_invocation (mkExpert "multiLID" 0.3) (mkExpert "UFD" 0.1)
    true "sin json" (Except.ok ()) (Except.ok ()) (mkExpert "multiLID" 0.3)
    (mkExpert "UFD" 0.1) true true "sin json"
  have hmem : TraceEvent.semanticPrompt 0.3 0.1 ∈
      (pipeline_process (mkExpert "multiLID" 0.3) (mkExpert "UFD" 0.1) true "sin json").1 := by
    simp [pipeline_process, semantic_analyze, semanticCtxVals, dictGet, List.find?, mkExpert]
  obtain ⟨hg, hv, -⟩ := h.1 0.3 0.1 hmem
  exact ⟨hg, hv⟩
